import Mathlib

/-!
Verification of the execution-environment abstraction layer and the static
asset gateway of the zeroclaw agent runtime.

The Rust sources are embedded shallowly:
* `src/gateway/static_files.rs` — the asset-safety predicate and the static
  request handler.  Rust `&str` values that need character-level reasoning
  are modelled as `List Char`; the embedded asset bundle (`WebAssets`, a
  compile-time artifact not present in the sources) and the external
  `mime_guess` lookup are passed as explicit function parameters.
* `src/runtime/native.rs` — the native runtime adapter.  The ambient host
  inputs that Rust reads implicitly (`#[cfg(windows)]`, the `COMSPEC`
  variable, `std::env::vars()`) become explicit parameters, and methods on
  `&self` are modelled with explicit state passing so that absence of
  mutation is a provable statement.
-/

namespace ZeroClaw

/-- Rust `&str`, modelled as its character sequence. -/
abbrev Str := List Char

/-- Rust `str::split(sep)`: the segments between occurrences of `sep`.
Like Rust's iterator, the empty string yields one empty segment, and
adjacent separators yield empty segments. -/
def splitSep (sep : Char) : Str → List Str
  | [] => [[]]
  | c :: cs =>
    if c = sep then [] :: splitSep sep cs
    else
      match splitSep sep cs with
      | [] => [[c]]
      | seg :: rest => (c :: seg) :: rest

/-- `is_safe_asset_path` from src/gateway/static_files.rs: the path is
non-empty, contains no backslash, and every '/'-separated segment is
non-empty and neither "." nor "..". -/
def is_safe_asset_path (path : Str) : Bool :=
  !path.isEmpty && !path.contains '\\' &&
    (splitSep '/' path).all fun segment =>
      !segment.isEmpty && segment != ['.'] && segment != ['.', '.']

/-! ### The static request handler (src/gateway/static_files.rs) -/

/-- The cache policy for fingerprinted assets. -/
def CACHE_IMMUTABLE : String := "public, max-age=31536000, immutable"

/-- The cache policy for everything else. -/
def CACHE_NO_STORE : String := "no-cache"

/-- Rust `str::contains(pat)` for a string pattern: `pat` occurs as a
contiguous substring. -/
def containsSubstr (needle : Str) : Str → Bool
  | [] => needle.isEmpty
  | x :: rest => needle.isPrefixOf (x :: rest) || containsSubstr needle rest

/-- An HTTP response as the handler builds it: a status code, the headers it
sets explicitly, and the body. -/
structure Response where
  status : Nat
  headers : List (String × String)
  body : Str
deriving DecidableEq

/-- The response `(StatusCode::NOT_FOUND, "Not found").into_response()`. -/
def notFoundResponse : Response := ⟨404, [], "Not found".data⟩

/-- `serve_embedded_file` from src/gateway/static_files.rs.  The embedded
bundle `WebAssets::get` (a compile-time artifact) and the `mime_guess`-based
`content_type_for` are parameters. -/
def serve_embedded_file (get : Str → Option Str) (content_type_for : Str → String)
    (path : Str) : Response :=
  match get path with
  | some content =>
    let cache_control := if containsSubstr "assets/".data path then CACHE_IMMUTABLE
      else CACHE_NO_STORE
    ⟨200, [("content-type", content_type_for path), ("cache-control", cache_control)],
      content⟩
  | none => ⟨404, [], "Not found".data⟩

/-- Rust `str::strip_prefix`: the remainder of `s` after `pre`, when `pre`
leads `s`. -/
def stripPrefixList (pre s : Str) : Option Str :=
  if pre.isPrefixOf s then some (s.drop pre.length) else none

/-- Rust `str::trim_start_matches(c)`: drop every leading occurrence of `c`. -/
def trim_start_matches (c : Char) : Str → Str
  | [] => []
  | x :: xs => if x = c then trim_start_matches c xs else x :: xs

/-- The asset path `handle_static` derives from the request URI path:
`uri.path().strip_prefix("/_app/").unwrap_or(uri.path()).trim_start_matches('/')`. -/
def static_request_path (uriPath : Str) : Str :=
  trim_start_matches '/' ((stripPrefixList "/_app/".data uriPath).getD uriPath)

/-- `handle_static` from src/gateway/static_files.rs. -/
def handle_static (get : Str → Option Str) (content_type_for : Str → String)
    (uriPath : Str) : Response :=
  let path := static_request_path uriPath
  if !is_safe_asset_path path then ⟨404, [], "Not found".data⟩
  else serve_embedded_file get content_type_for path

/-! ### The native runtime adapter (src/runtime/native.rs) -/

/-- The platform family the `#[cfg(windows)]` / `#[cfg(not(windows))]`
conditional compilation selects between. -/
inductive HostFamily where
  | windows
  | posix
deriving DecidableEq

/-- A `tokio::process::Command` as `build_shell_command` constructs it: the
program, its argument vector, the environment table set on it, and its
working directory. -/
structure Command where
  program : String
  args : List String
  env : List (String × String)
  current_dir : Option String
deriving DecidableEq

/-- The fieldless `NativeRuntime` adapter struct. -/
structure NativeRuntime
deriving DecidableEq

/-- `NativeRuntime::new`. -/
def NativeRuntime.new : NativeRuntime := ⟨⟩

/-- `name` of the native adapter. -/
def NativeRuntime.name (_ : NativeRuntime) : String := "native"

/-- `has_shell_access` of the native adapter. -/
def NativeRuntime.has_shell_access (_ : NativeRuntime) : Bool := true

/-- `has_filesystem_access` of the native adapter. -/
def NativeRuntime.has_filesystem_access (_ : NativeRuntime) : Bool := true

/-- `supports_long_running` of the native adapter. -/
def NativeRuntime.supports_long_running (_ : NativeRuntime) : Bool := true

/-- Rust `PathBuf::join` restricted to a relative, separator-free child, as
used by `storage_path`: push a separator when the base does not already end
in one, and nothing when the base is empty. -/
def pathJoin (base child : Str) : Str :=
  if base = [] then child
  else if base.getLast? = some '/' then base ++ child
  else base ++ '/' :: child

/-- `storage_path` from src/runtime/native.rs.  The host lookup
`directories::UserDirs::new().map(|u| u.home_dir())` is the explicit
`home_dir` parameter: `none` when no home directory resolves. -/
def NativeRuntime.storage_path (_ : NativeRuntime) (home_dir : Option Str) : Str :=
  match home_dir with
  | none => ".zeroclaw".data
  | some h => pathJoin h ".zeroclaw".data

/-- `build_shell_command` from src/runtime/native.rs.  The ambient inputs —
platform family, the `COMSPEC` variable, `std::env::vars()` — are explicit
parameters; the `&self` receiver is threaded through so theorems can state
that the call leaves the adapter unchanged.  Its `anyhow::Result` is an
`Except String`. -/
def NativeRuntime.build_shell_command (self : NativeRuntime) (host : HostFamily)
    (comspec : Option String) (env_vars : List (String × String))
    (command : String) (workspace_dir : String) :
    Except String Command × NativeRuntime :=
  let process : Command :=
    match host with
    | .windows =>
      let shell := comspec.getD "cmd.exe"
      ⟨shell, ["/d", "/s", "/c", command], env_vars, none⟩
    | .posix =>
      ⟨"sh", ["-c", command], env_vars, none⟩
  let process : Command := ⟨process.program, process.args, process.env, some workspace_dir⟩
  (Except.ok process, self)

/-- The '/'-separated components of a path string. -/
def pathComponents (p : Str) : List Str := splitSep '/' p

/-- `splitSep` never returns the empty list. -/
theorem splitSep_ne_nil (sep : Char) (s : Str) : splitSep sep s ≠ [] := by
  induction s with
  | nil => simp [splitSep]
  | cons c cs ih =>
    simp only [splitSep]
    split
    · simp
    · split
      · simp
      · simp

/-- `splitSep` distributes over a separator occurrence. -/
theorem splitSep_append_cons (sep : Char) (xs ys : Str) :
    splitSep sep (xs ++ sep :: ys) = splitSep sep xs ++ splitSep sep ys := by
  induction xs with
  | nil => simp [splitSep]
  | cons c cs ih =>
    by_cases hc : c = sep
    · subst hc
      simp [splitSep, ih]
    · cases h : splitSep sep cs with
      | nil => exact absurd h (splitSep_ne_nil sep cs)
      | cons seg rest => simp [splitSep, hc, ih, h]

/-- C1: `is_safe_asset_path p` holds exactly when `p` is non-empty, contains
no backslash, and every '/'-separated segment of `p` is non-empty and
different from "." and ".."; it accepts "assets/app.js" and
"assets/chunks/main.css", rejects "", "../secret.txt" and
"assets/../secret.txt", and rejects every path containing a backslash. -/
theorem is_safe_asset_path_characterization :
    (∀ p : Str, is_safe_asset_path p = true ↔
      (p ≠ [] ∧ '\\' ∉ p ∧
        ∀ seg ∈ splitSep '/' p, seg ≠ [] ∧ seg ≠ ['.'] ∧ seg ≠ ['.', '.'])) ∧
    is_safe_asset_path "assets/app.js".data = true ∧
    is_safe_asset_path "assets/chunks/main.css".data = true ∧
    is_safe_asset_path "".data = false ∧
    is_safe_asset_path "../secret.txt".data = false ∧
    is_safe_asset_path "assets/../secret.txt".data = false ∧
    (∀ p : Str, '\\' ∈ p → is_safe_asset_path p = false) := by
  have hiff : ∀ p : Str, is_safe_asset_path p = true ↔
      (p ≠ [] ∧ '\\' ∉ p ∧
        ∀ seg ∈ splitSep '/' p, seg ≠ [] ∧ seg ≠ ['.'] ∧ seg ≠ ['.', '.']) := by
    intro p
    simp [is_safe_asset_path, List.all_eq_true, and_assoc]
  refine ⟨hiff, by decide, by decide, by decide, by decide, by decide, ?_⟩
  intro p hmem
  by_contra hne
  have : is_safe_asset_path p = true := by
    cases h : is_safe_asset_path p with
    | false => exact absurd h hne
    | true => rfl
  exact ((hiff p).mp this).2.1 hmem

/-- An asset bundle with nothing in it, for concrete instantiations. -/
def noAssets : Str → Option Str := fun _ => none

/-- A constant content-type lookup, for concrete instantiations. -/
def plainType : Str → String := fun _ => "application/octet-stream"

/-- C2: a request whose derived asset path fails the safety predicate gets
the not-found response — status 404, body "Not found" — and that response is
identical to the one produced for a safe path naming a missing asset, so the
two cases are indistinguishable. -/
theorem handle_static_unsafe_not_found (get : Str → Option Str)
    (ctf : Str → String) (u : Str)
    (h : is_safe_asset_path (static_request_path u) = false) :
    handle_static get ctf u = notFoundResponse ∧
    notFoundResponse.status = 404 ∧
    notFoundResponse.body = "Not found".data ∧
    ∀ p, is_safe_asset_path p = true → get p = none →
      handle_static get ctf u = serve_embedded_file get ctf p := by
  have h1 : handle_static get ctf u = notFoundResponse := by
    simp [handle_static, h, notFoundResponse]
  refine ⟨h1, rfl, rfl, ?_⟩
  intro p _ hnone
  rw [h1]
  simp [serve_embedded_file, hnone, notFoundResponse]

/-- C2, instantiated: the traversal request "/_app/../secret.txt" against the
empty bundle gets the canonical not-found response. -/
theorem handle_static_unsafe_not_found_witness :
    handle_static noAssets plainType "/_app/../secret.txt".data = notFoundResponse ∧
    notFoundResponse.status = 404 ∧
    notFoundResponse.body = "Not found".data ∧
    ∀ p, is_safe_asset_path p = true → noAssets p = none →
      handle_static noAssets plainType "/_app/../secret.txt".data =
        serve_embedded_file noAssets plainType p :=
  handle_static_unsafe_not_found noAssets plainType "/_app/../secret.txt".data (by decide)

/-- C10: the handler strips one leading "/_app/" when present, keeps the full
URI path when the marker is absent rather than rejecting the request, then
trims every remaining leading '/'; consequently a request outside the /_app/
namespace, such as "/app.js", is also served from the embedded bundle. -/
theorem handle_static_path_derivation :
    (∀ rest : Str, static_request_path ("/_app/".data ++ rest) =
      trim_start_matches '/' rest) ∧
    (∀ u : Str, ("/_app/".data).isPrefixOf u = false →
      static_request_path u = trim_start_matches '/' u) ∧
    (∀ (get : Str → Option Str) (ctf : Str → String) (content : Str),
      get "app.js".data = some content →
      handle_static get ctf "/app.js".data =
        ⟨200, [("content-type", ctf "app.js".data), ("cache-control", CACHE_NO_STORE)],
          content⟩) := by
  refine ⟨?_, ?_, ?_⟩
  · intro rest
    have hp : ("/_app/".data).isPrefixOf ("/_app/".data ++ rest) = true :=
      List.isPrefixOf_iff_prefix.mpr (List.prefix_append _ _)
    simp [static_request_path, stripPrefixList, hp, List.drop_left]
  · intro u hu
    simp [static_request_path, stripPrefixList, hu]
  · intro get ctf content hg
    have hpath : static_request_path "/app.js".data = "app.js".data := by decide
    have hsafe : is_safe_asset_path "app.js".data = true := by decide
    have hcache : containsSubstr "assets/".data "app.js".data = false := by decide
    simp [handle_static, hpath, hsafe, serve_embedded_file, hg, hcache]

/-- C3: `build_shell_command` selects the interpreter by host family and
builds the argument vector accordingly: on Windows the interpreter is
`COMSPEC` when set and "cmd.exe" otherwise, with flags /d /s /c and then the
raw command as one argument; elsewhere the interpreter is "sh" with the
single flag "-c" and then the raw command as one argument. -/
theorem build_shell_command_interpreter (self : NativeRuntime) (shell : String)
    (comspec : Option String) (env_vars : List (String × String))
    (command workspace_dir : String) :
    (self.build_shell_command .windows (some shell) env_vars command workspace_dir).1 =
      Except.ok ⟨shell, ["/d", "/s", "/c", command], env_vars, some workspace_dir⟩ ∧
    (self.build_shell_command .windows none env_vars command workspace_dir).1 =
      Except.ok ⟨"cmd.exe", ["/d", "/s", "/c", command], env_vars, some workspace_dir⟩ ∧
    (self.build_shell_command .posix comspec env_vars command workspace_dir).1 =
      Except.ok ⟨"sh", ["-c", command], env_vars, some workspace_dir⟩ :=
  ⟨rfl, rfl, rfl⟩

/-- C4: for every host family, command string and working directory, the
native adapter's `build_shell_command` returns the success variant; the
error variant is never produced. -/
theorem build_shell_command_never_errs (self : NativeRuntime) (host : HostFamily)
    (comspec : Option String) (env_vars : List (String × String))
    (command workspace_dir : String) :
    ∃ c, (self.build_shell_command host comspec env_vars command workspace_dir).1 =
      Except.ok c := by
  cases host <;> exact ⟨_, rfl⟩

/-- C5: the entire parent environment table is propagated into the returned
process description: the child's table is the parent's table, so every
variable present in the parent appears with the same value in the child. -/
theorem build_shell_command_env_propagated (self : NativeRuntime) (host : HostFamily)
    (comspec : Option String) (env_vars : List (String × String))
    (command workspace_dir : String) :
    ∃ c, (self.build_shell_command host comspec env_vars command workspace_dir).1 =
      Except.ok c ∧ c.env = env_vars ∧ ∀ kv ∈ env_vars, kv ∈ c.env := by
  cases host <;> exact ⟨_, rfl, rfl, fun kv hkv => hkv⟩

/-- C6: for every supplied working-directory path — unvalidated and
unexamined — the returned process description carries exactly that path as
the child's working directory. -/
theorem build_shell_command_cwd (self : NativeRuntime) (host : HostFamily)
    (comspec : Option String) (env_vars : List (String × String))
    (command workspace_dir : String) :
    ∃ c, (self.build_shell_command host comspec env_vars command workspace_dir).1 =
      Except.ok c ∧ c.current_dir = some workspace_dir := by
  cases host <;> exact ⟨_, rfl, rfl⟩

/-- C7 counterexample: when no home directory resolves, `storage_path`
returns ".zeroclaw", not the claimed "./.zeroclaw". -/
theorem storage_path_fallback_cex :
    NativeRuntime.new.storage_path none ≠ "./.zeroclaw".data := by decide

/-- C7 amended: `storage_path` is a two-tier total operation: with a resolved
home directory it returns `<home>/.zeroclaw`, and with none it returns the
relative path ".zeroclaw" (no explicit "./" component), resolved against the
process's current directory. -/
theorem storage_path_two_tier (h : Str) (h1 : h ≠ []) (h2 : h.getLast? ≠ some '/') :
    NativeRuntime.new.storage_path (some h) = h ++ '/' :: ".zeroclaw".data ∧
    NativeRuntime.new.storage_path none = ".zeroclaw".data := by
  constructor
  · simp [NativeRuntime.storage_path, pathJoin, h1, h2]
  · rfl

/-- C7 amended, instantiated at the home directory "/home/user". -/
theorem storage_path_two_tier_witness :
    NativeRuntime.new.storage_path (some "/home/user".data) =
      "/home/user".data ++ '/' :: ".zeroclaw".data ∧
    NativeRuntime.new.storage_path none = ".zeroclaw".data :=
  storage_path_two_tier "/home/user".data (by decide) (by decide)

/-- C8 counterexample: in the fallback state the returned path is
".zeroclaw", whose single component is ".zeroclaw"; the agent's name
"zeroclaw" is not itself a path component. -/
theorem storage_path_component_cex :
    "zeroclaw".data ∉ pathComponents (NativeRuntime.new.storage_path none) := by
  decide

/-- Every path `storage_path` returns is `.zeroclaw` itself or ends in a
separator followed by `.zeroclaw`. -/
theorem storage_path_decomp (home : Option Str) :
    NativeRuntime.new.storage_path home = ".zeroclaw".data ∨
    ∃ pre, NativeRuntime.new.storage_path home = pre ++ '/' :: ".zeroclaw".data := by
  cases home with
  | none => exact Or.inl rfl
  | some h =>
    by_cases h0 : h = []
    · left
      simp [NativeRuntime.storage_path, pathJoin, h0]
    · by_cases hl : h.getLast? = some '/'
      · right
        refine ⟨h.dropLast, ?_⟩
        have hlast : h.getLast h0 = '/' := by
          have := List.getLast?_eq_getLast h h0
          rw [this] at hl
          exact Option.some.inj hl
        simp only [NativeRuntime.storage_path, pathJoin, if_neg h0, if_pos hl]
        conv_lhs => rw [← List.dropLast_append_getLast h0, hlast]
        simp
      · right
        exact ⟨h, by simp [NativeRuntime.storage_path, pathJoin, h0, hl]⟩

/-- C8 amended: `storage_path` is total and the final '/'-separated component
of the returned path is always ".zeroclaw" — the agent's name prefixed with a
dot — so the agent's name always appears inside a component, though never as
a bare component contributed by the adapter. -/
theorem storage_path_last_component (home : Option Str) :
    (pathComponents (NativeRuntime.new.storage_path home)).getLast? =
      some ".zeroclaw".data ∧
    "zeroclaw".data <:+: NativeRuntime.new.storage_path home := by
  have hsplit : splitSep '/' ".zeroclaw".data = [".zeroclaw".data] := by decide
  rcases storage_path_decomp home with heq | ⟨pre, heq⟩
  · rw [heq]
    exact ⟨by decide, by decide⟩
  · rw [heq]
    constructor
    · rw [pathComponents, splitSep_append_cons, List.getLast?_append, hsplit]
      rfl
    · refine ⟨pre ++ ['/', '.'], [], ?_⟩
      have hzc : ".zeroclaw".data = '.' :: "zeroclaw".data := rfl
      rw [hzc]
      simp

/-- C8 amended is total: no hypothesis, but instantiate it anyway at the
fallback state to record the concrete component. -/
theorem storage_path_last_component_witness :
    (pathComponents (NativeRuntime.new.storage_path none)).getLast? =
      some ".zeroclaw".data ∧
    "zeroclaw".data <:+: NativeRuntime.new.storage_path none :=
  storage_path_last_component none

/-- C9: the capability queries of the native adapter are the constant
functions true, true and true: equal across all adapter instances, hence
unchanged by any call, and `build_shell_command` hands back the adapter
state it received, so prior invocations cannot affect them. -/
theorem capability_flags_stable (r : NativeRuntime) (host : HostFamily)
    (comspec : Option String) (env_vars : List (String × String))
    (command workspace_dir : String) :
    r.has_shell_access = true ∧ r.has_filesystem_access = true ∧
    r.supports_long_running = true ∧
    (∀ r' : NativeRuntime,
      r'.has_shell_access = r.has_shell_access ∧
      r'.has_filesystem_access = r.has_filesystem_access ∧
      r'.supports_long_running = r.supports_long_running) ∧
    (r.build_shell_command host comspec env_vars command workspace_dir).2 = r ∧
    (r.build_shell_command host comspec env_vars command workspace_dir).2.has_shell_access
      = r.has_shell_access ∧
    (r.build_shell_command host comspec env_vars command
        workspace_dir).2.has_filesystem_access = r.has_filesystem_access ∧
    (r.build_shell_command host comspec env_vars command
        workspace_dir).2.supports_long_running = r.supports_long_running :=
  ⟨rfl, rfl, rfl, fun _ => ⟨rfl, rfl, rfl⟩, rfl, rfl, rfl, rfl⟩

end ZeroClaw
